import Mathlib

/-!
Verification of the mlex-json-rules generator (src/index.js).

The development shallowly embeds the two source functions `parseMarkdownFile`,
`generateFactsJSON` and `generateRulesJSON` as pure Lean functions over an
explicit enumeration of `(fileName, content)` pairs; the file-system
collaborators (directory listing, file reads, writes) become explicit
parameters or `Except`-valued inputs, and the external markdown renderer
(`marked.parse`) becomes a function parameter `render`, since its output never
feeds back into titles, bodies, tags or rules.

The JavaScript string operations the source relies on (`split`, `slice`,
`trim`, `startsWith`, the `/#(\w+)/g` scan) are embedded as structurally
recursive functions over `List Char` modelling ECMAScript semantics on the
ASCII texts the program manipulates; in particular `"".split('\n')` is
`[""]`, so `lines[0]` never reads past the end, and `!title` is true exactly
when `title` is `null` or the empty string, which is modelled as an
`Option String` that falls back also on `some ""`.
-/

namespace MlexJsonRules

/-- The record returned by `parseMarkdownFile` in src/index.js:
`{ title, body, tags, htmlContent }`. -/
structure Fact where
  title : String
  body : String
  tags : List String
  htmlContent : String
deriving DecidableEq, Repr

/-! JavaScript string primitives, embedded as structurally recursive
functions over `List Char` so that every concrete computation reduces inside
the kernel. They model ECMAScript semantics on the ASCII texts the program
manipulates. -/

/-- `String.prototype.split(sep)` for a one-character separator `sep` (the
source only splits on `'\n'` and `'-'`). `"".split(sep)` is `[""]`, so the
result is never empty. -/
def splitOnCharAux (sep : Char) : List Char → List Char → List (List Char)
  | [], acc => [acc.reverse]
  | x :: xs, acc =>
    if x = sep then acc.reverse :: splitOnCharAux sep xs []
    else splitOnCharAux sep xs (x :: acc)

/-- `s.split(sep)` for a one-character separator. -/
def splitOnChar (sep : Char) (s : String) : List String :=
  (splitOnCharAux sep s.data []).map String.mk

/-- `s.startsWith(p)`. -/
def jsStartsWith (p s : String) : Bool :=
  p.data.isPrefixOf s.data

/-- ECMAScript whitespace, restricted to the ASCII range. -/
def isJsSpace (c : Char) : Bool :=
  c = ' ' || c = '\t' || c = '\n' || c = '\r' || c = '\x0b' || c = '\x0c'

/-- `s.trim()`: strip whitespace from both ends. -/
def jsTrim (s : String) : String :=
  String.mk (((s.data.dropWhile isJsSpace).reverse.dropWhile isJsSpace).reverse)

/-- `s.slice(n)` for `n ≥ 0`: drop the first `n` characters. -/
def jsSlice (n : Nat) (s : String) : String :=
  String.mk (s.data.drop n)

/-- JavaScript `\w` word characters: ASCII letters, digits and underscore. -/
def isWordChar (c : Char) : Bool :=
  c.isAlphanum || c = '_'

/-- Left-to-right scan of `content.matchAll(/#(\w+)/g)`: at each `#` followed
by at least one word character, capture the maximal word-character run and
resume scanning after it; otherwise advance one character. The `fuel`
argument (initialized to the text length, an upper bound on the number of
scan steps, each of which consumes at least one character) only makes the
recursion structural; it never runs out. -/
def scanInlineTags : Nat → List Char → List String
  | _, [] => []
  | 0, _ :: _ => []
  | fuel + 1, c :: rest =>
    if c = '#' then
      let w := rest.takeWhile isWordChar
      if w = [] then scanInlineTags fuel rest
      else String.mk w :: scanInlineTags fuel (rest.drop w.length)
    else scanInlineTags fuel rest

/-- `[...content.matchAll(/#(\w+)/g)].map(match => match[1])`. -/
def extractInlineTags (content : String) : List String :=
  scanInlineTags content.data.length content.data

/-- `Array.from(new Set(xs))`: deduplication keeping the first occurrence of
each element, preserving first-occurrence order (JS `Set` iterates in
insertion order). -/
def dedupPreserve (xs : List String) : List String :=
  xs.foldl (fun acc x => if acc.contains x then acc else acc ++ [x]) []

/-- The candidate tags pushed by the `line.startsWith('- ')` loop of
`parseMarkdownFile`: for each bullet line, the remainder after the marker is
split on `'-'` and each piece trimmed. -/
def bulletTagCandidates (lines : List String) : List String :=
  lines.flatMap fun line =>
    if jsStartsWith "- " line then (splitOnChar '-' (jsSlice 2 line)).map jsTrim
    else []

/-- Shallow embedding of `parseMarkdownFile` (src/index.js lines 10-50), with
the already-read file text supplied as `content`, the `.md`-stripped base name
as `fileName`, and `marked.parse` as the parameter `render`. -/
def parseMarkdownFile (render : String → String) (fileName content : String) :
    Fact :=
  let htmlContent := render content
  let lines := splitOnChar '\n' content
  let firstLine := lines.headD ""
  let title? : Option String :=
    if jsStartsWith "# " firstLine then some (jsTrim (jsSlice 2 firstLine))
    else none
  let body : String :=
    if jsStartsWith "# " firstLine then String.intercalate "\n" (lines.drop 1)
    else content
  -- `if (!title) title = fileName;` — JS `!title` also fires on `""`.
  let title : String :=
    match title? with
    | some t => if t = "" then fileName else t
    | none => fileName
  let tags : List String :=
    dedupPreserve
      (((bulletTagCandidates lines) ++ extractInlineTags content).map jsTrim)
  { title := title, body := body, tags := tags, htmlContent := htmlContent }

/-- Node `path.extname` restricted to plain file names (no directory
separators): the suffix from the last `'.'`, empty when there is no `'.'` or
the only relevant `'.'` is the leading character (dotfiles). -/
def extname (file : String) : String :=
  let cs := file.data
  match cs.enum.foldl
      (fun acc (p : Nat × Char) => if p.2 = '.' then some p.1 else acc)
      none with
  | none => ""
  | some 0 => ""
  | some i => String.mk (cs.drop i)

/-- `path.basename(filePath, '.md')`: the file name with a trailing `.md`
removed when present. -/
def basenameMd (file : String) : String :=
  if file.endsWith ".md" then file.dropRight 3 else file

/-- The `conditions` member of a generated rule: either
`{ "in": [tag, {var: "tags"}] }` or `{ "==": [{var: "body"}, body] }`. -/
inductive RuleCond where
  | tagIn (tag : String)
  | bodyEq (body : String)
deriving DecidableEq, Repr

/-- The `event` member of a generated rule:
`{ type, params: { message, title, body } }`. -/
structure RuleEvent where
  type : String
  message : String
  title : String
  body : String
deriving DecidableEq, Repr

/-- A generated rule object `{ conditions, event }`. -/
structure Rule where
  conditions : RuleCond
  event : RuleEvent
deriving DecidableEq, Repr

/-- The tag-match rule object built in `generateRulesJSON` for one tag of one
fact. -/
def tagRule (tag : String) (fact : Fact) : Rule :=
  { conditions := .tagIn tag
    event :=
      { type := "tagMatch"
        message := "Matched tag: " ++ tag
        title := fact.title
        body := fact.body } }

/-- The body-match rule object built in `generateRulesJSON` for one fact. -/
def bodyRule (fact : Fact) : Rule :=
  { conditions := .bodyEq fact.body
    event :=
      { type := "bodyMatch"
        message := "Matched body content"
        title := fact.title
        body := fact.body } }

/-- `if (!rules.has(ruleKey)) rules.add(ruleKey)`: insertion into the
insertion-ordered dedup set. The JS set stores `JSON.stringify` keys; since
that serialization has fixed key order and is injective on strings, key
equality coincides with structural equality of `Rule`, which is what the list
membership test uses. -/
def addRule (rules : List Rule) (r : Rule) : List Rule :=
  if r ∈ rules then rules else rules ++ [r]

/-- The rules contributed by one non-excluded fact, in source order: one
tag-match rule per tag (in the fact's tag order) followed by one body-match
rule, each inserted through the dedup set. -/
def factRules (rules : List Rule) (fact : Fact) : List Rule :=
  addRule (fact.tags.foldl (fun rs tag => addRule rs (tagRule tag fact)) rules)
    (bodyRule fact)

/-- One iteration of the `for (const file of files)` loop of
`generateFactsJSON`: skip non-`.md` entries, parse, skip UNFINISHED facts,
append the rest. -/
def factsStep (render : String → String) (facts : List Fact)
    (doc : String × String) : List Fact :=
  if extname doc.1 = ".md" then
    let fact := parseMarkdownFile render (basenameMd doc.1) doc.2
    if fact.tags.contains "UNFINISHED" then facts else facts ++ [fact]
  else facts

/-- The facts collection accumulated by `generateFactsJSON` over the
directory enumeration `docs` (pairs of file name and file content, in
enumeration order). -/
def generateFacts (render : String → String) (docs : List (String × String)) :
    List Fact :=
  docs.foldl (factsStep render) []

/-- One iteration of the `for (const file of files)` loop of
`generateRulesJSON`: skip non-`.md` entries, parse, skip UNFINISHED facts,
insert the fact's rules into the dedup set. -/
def rulesStep (render : String → String) (rules : List Rule)
    (doc : String × String) : List Rule :=
  if extname doc.1 = ".md" then
    let fact := parseMarkdownFile render (basenameMd doc.1) doc.2
    if fact.tags.contains "UNFINISHED" then rules else factRules rules fact
  else rules

/-- The deduplicated rules list accumulated by `generateRulesJSON` over the
directory enumeration `docs`, in first-insertion order. -/
def generateRules (render : String → String) (docs : List (String × String)) :
    List Rule :=
  docs.foldl (rulesStep render) []

/-! ### JSON serialization (`JSON.stringify(value, null, 2)`)

Only the value shapes the program serializes are modelled: strings, arrays
and objects (with the field order of the source's object literals). -/

/-- JSON values as produced by this program. -/
inductive Json where
  | str (s : String)
  | arr (elems : List Json)
  | obj (fields : List (String × Json))

/-- Lower-case hexadecimal digit. -/
def hexDigit (n : Nat) : Char :=
  if n < 10 then Char.ofNat ('0'.toNat + n) else Char.ofNat ('a'.toNat + (n - 10))

/-- `JSON.stringify` escaping of one character inside a string literal. -/
def escapeChar (c : Char) : String :=
  if c = '"' then "\\\""
  else if c = '\\' then "\\\\"
  else if c = '\x08' then "\\b"
  else if c = '\x0c' then "\\f"
  else if c = '\n' then "\\n"
  else if c = '\r' then "\\r"
  else if c = '\t' then "\\t"
  else if c.toNat < 0x20 then
    "\\u00" ++ String.mk [hexDigit (c.toNat / 16), hexDigit (c.toNat % 16)]
  else String.singleton c

/-- `JSON.stringify` of a string value. -/
def jsonQuote (s : String) : String :=
  "\"" ++ String.join (s.data.map escapeChar) ++ "\""

/-- `n` spaces of indentation. -/
def spaces (n : Nat) : String :=
  String.mk (List.replicate n ' ')

mutual

/-- `JSON.stringify(v, null, 2)` at nesting indentation `ind`. -/
def serializeJson (ind : Nat) : Json → String
  | .str s => jsonQuote s
  | .arr [] => "[]"
  | .arr (e :: es) =>
    "[\n" ++ String.intercalate ",\n" (serializeJsonList (ind + 2) (e :: es))
      ++ "\n" ++ spaces ind ++ "]"
  | .obj [] => "\x7b\x7d"
  | .obj (f :: fs) =>
    "\x7b\n" ++ String.intercalate ",\n" (serializeJsonFields (ind + 2) (f :: fs))
      ++ "\n" ++ spaces ind ++ "\x7d"

/-- Serialized array elements, one per line at indentation `ind`. -/
def serializeJsonList (ind : Nat) : List Json → List String
  | [] => []
  | j :: js => (spaces ind ++ serializeJson ind j) :: serializeJsonList ind js

/-- Serialized object fields, one per line at indentation `ind`. -/
def serializeJsonFields (ind : Nat) : List (String × Json) → List String
  | [] => []
  | (k, v) :: fs =>
    (spaces ind ++ jsonQuote k ++ ": " ++ serializeJson ind v) ::
      serializeJsonFields ind fs

end

/-- The JSON object a fact is serialized as, in the source's field order. -/
def factJson (f : Fact) : Json :=
  .obj [("title", .str f.title), ("body", .str f.body),
        ("tags", .arr (f.tags.map Json.str)),
        ("htmlContent", .str f.htmlContent)]

/-- The JSON form of a rule's `conditions`, in the source's field order. -/
def condJson : RuleCond → Json
  | .tagIn tag => .obj [("in", .arr [.str tag, .obj [("var", .str "tags")]])]
  | .bodyEq body => .obj [("==", .arr [.obj [("var", .str "body")], .str body])]

/-- The canonical JSON form of a whole rule `{conditions, event}`, the value
whose `JSON.stringify` the source uses as the dedup key. -/
def ruleJson (r : Rule) : Json :=
  .obj [("conditions", condJson r.conditions),
        ("event", .obj [("type", .str r.event.type),
                        ("params", .obj [("message", .str r.event.message),
                                         ("title", .str r.event.title),
                                         ("body", .str r.event.body)])])]

/-- The byte content `generateFactsJSON` writes to its output file. -/
def factsOutput (render : String → String) (docs : List (String × String)) :
    String :=
  serializeJson 0 (Json.arr ((generateFacts render docs).map factJson))

/-- The byte content `generateRulesJSON` writes to its output file. -/
def rulesOutput (render : String → String) (docs : List (String × String)) :
    String :=
  serializeJson 0 (Json.arr ((generateRules render docs).map ruleJson))

/-! ### Error-handling layer

`fs.readdir` and each `fs.readFile` may fail; both generator functions wrap
their whole body in `try/catch`, so an error anywhere before the write skips
the write. A run's collaborator behavior is an
`Except IOErr (List (String × Except IOErr String))`: the directory listing
(which may fail), each listed name paired with its read outcome. -/

/-- I/O error descriptions. -/
abbrev IOErr := String

/-- The `for` loop of `generateFactsJSON` with fallible reads: the first
failing read of a `.md` file aborts with that error (`parseMarkdownFile`
rethrows the read failure); otherwise the facts accumulate as in
`generateFacts`. -/
def readParseAll (render : String → String) :
    List (String × Except IOErr String) → List Fact →
      Except IOErr (List Fact)
  | [], facts => .ok facts
  | fd :: files, facts =>
    if extname fd.1 = ".md" then
      match fd.2 with
      | .error e => .error e
      | .ok content =>
        let fact := parseMarkdownFile render (basenameMd fd.1) content
        readParseAll render files
          (if fact.tags.contains "UNFINISHED" then facts else facts ++ [fact])
    else readParseAll render files facts

/-- The `for` loop of `generateRulesJSON` with fallible reads. -/
def collectRulesAll (render : String → String) :
    List (String × Except IOErr String) → List Rule →
      Except IOErr (List Rule)
  | [], rules => .ok rules
  | fd :: files, rules =>
    if extname fd.1 = ".md" then
      match fd.2 with
      | .error e => .error e
      | .ok content =>
        let fact := parseMarkdownFile render (basenameMd fd.1) content
        collectRulesAll render files
          (if fact.tags.contains "UNFINISHED" then rules else factRules rules fact)
    else collectRulesAll render files rules

/-- The `try` block of `generateFactsJSON` up to (and excluding) the write:
the enumeration, the read/parse loop, and the serialization of the content
that would be written. -/
def factsBody (render : String → String)
    (listing : Except IOErr (List (String × Except IOErr String))) :
    Except IOErr String := do
  let files ← listing
  let facts ← readParseAll render files []
  pure (serializeJson 0 (Json.arr (facts.map factJson)))

/-- The `try` block of `generateRulesJSON` up to (and excluding) the write. -/
def rulesBody (render : String → String)
    (listing : Except IOErr (List (String × Except IOErr String))) :
    Except IOErr String := do
  let files ← listing
  let rules ← collectRulesAll render files []
  pure (serializeJson 0 (Json.arr (rules.map ruleJson)))

/-- A pass's effect on its output file: either the full content was handed to
the write collaborator, or an error was caught first and nothing was written. -/
inductive PassOutcome where
  | wrote (content : String)
  | failed (err : IOErr)
deriving DecidableEq, Repr

/-- Outcome of one `generateFactsJSON` call for one collaborator behavior. -/
def factsPass (render : String → String)
    (listing : Except IOErr (List (String × Except IOErr String))) :
    PassOutcome :=
  match factsBody render listing with
  | .ok content => .wrote content
  | .error e => .failed e

/-- Outcome of one `generateRulesJSON` call for one collaborator behavior. -/
def rulesPass (render : String → String)
    (listing : Except IOErr (List (String × Except IOErr String))) :
    PassOutcome :=
  match rulesBody render listing with
  | .ok content => .wrote content
  | .error e => .failed e

/-- The main script: `await generateFactsJSON(...)` then
`await generateRulesJSON(...)`, each pass re-enumerating and re-reading on
its own (behaviors `l1` for the facts pass, `l2` for the rules pass). Since
each generator catches every error internally, the rules pass is always
reached. -/
def mainRun (render : String → String)
    (l1 l2 : Except IOErr (List (String × Except IOErr String))) :
    PassOutcome × PassOutcome :=
  (factsPass render l1, rulesPass render l2)

/-- Whether a collaborator behavior makes the pass's `try` block throw: the
enumeration itself fails, or the read of some `.md` entry fails. -/
def listingHasError
    (listing : Except IOErr (List (String × Except IOErr String))) : Bool :=
  match listing with
  | .error _ => true
  | .ok files =>
    files.any fun fd =>
      extname fd.1 = ".md" &&
        match fd.2 with
        | .error _ => true
        | .ok _ => false

/-- The value `generateFactsJSON` resolves with, as seen by its caller: the
surrounding `try/catch` only logs, so every read, parse and write failure is
swallowed and the function resolves with `()` unconditionally. -/
def generateFactsJSONReturn (render : String → String)
    (listing : Except IOErr (List (String × Except IOErr String)))
    (writeRes : Except IOErr Unit) : Except IOErr Unit :=
  match factsBody render listing with
  | .error _ => .ok ()
  | .ok _ =>
    match writeRes with
    | .error _ => .ok ()
    | .ok _ => .ok ()

/-- The value `generateRulesJSON` resolves with, as seen by its caller. -/
def generateRulesJSONReturn (render : String → String)
    (listing : Except IOErr (List (String × Except IOErr String)))
    (writeRes : Except IOErr Unit) : Except IOErr Unit :=
  match rulesBody render listing with
  | .error _ => .ok ()
  | .ok _ =>
    match writeRes with
    | .error _ => .ok ()
    | .ok _ => .ok ()

/-- Number of tag-match rules for tag `t` in a rules list. -/
def tagRuleCount (rules : List Rule) (t : String) : Nat :=
  (rules.filter fun r => decide (r.conditions = RuleCond.tagIn t)).length

/-- Number of body-match rules for body `b` in a rules list. -/
def bodyRuleCount (rules : List Rule) (b : String) : Nat :=
  (rules.filter fun r => decide (r.conditions = RuleCond.bodyEq b)).length

/-! ### Helper lemmas -/

lemma addRule_nodup {rules : List Rule} {r : Rule} (h : rules.Nodup) :
    (addRule rules r).Nodup := by
  unfold addRule
  split
  · exact h
  · next hr =>
    simpa [List.nodup_append] using ⟨h, hr⟩

lemma foldl_addRule_nodup (fact : Fact) (tags : List String) :
    ∀ rules : List Rule, rules.Nodup →
      (tags.foldl (fun rs tag => addRule rs (tagRule tag fact)) rules).Nodup := by
  induction tags with
  | nil => exact fun _ h => h
  | cons t ts ih => exact fun rules h => ih _ (addRule_nodup h)

lemma factRules_nodup {rules : List Rule} {fact : Fact} (h : rules.Nodup) :
    (factRules rules fact).Nodup :=
  addRule_nodup (foldl_addRule_nodup fact fact.tags rules h)

lemma rulesStep_nodup (render : String → String) (doc : String × String)
    {rules : List Rule} (h : rules.Nodup) :
    (rulesStep render rules doc).Nodup := by
  unfold rulesStep
  split
  · simp only []
    split
    · exact h
    · exact factRules_nodup h
  · exact h

lemma foldl_rulesStep_nodup (render : String → String)
    (docs : List (String × String)) :
    ∀ rules : List Rule, rules.Nodup →
      (docs.foldl (rulesStep render) rules).Nodup := by
  induction docs with
  | nil => exact fun _ h => h
  | cons d ds ih => exact fun rules h => ih _ (rulesStep_nodup render d h)

lemma generateRules_nodup (render : String → String)
    (docs : List (String × String)) : (generateRules render docs).Nodup :=
  foldl_rulesStep_nodup render docs [] List.nodup_nil

lemma ruleJson_injective : Function.Injective ruleJson := by
  intro r₁ r₂ h
  obtain ⟨c₁, t₁, m₁, ti₁, b₁⟩ := r₁
  obtain ⟨c₂, t₂, m₂, ti₂, b₂⟩ := r₂
  cases c₁ <;> cases c₂ <;> simp_all [ruleJson, condJson]

lemma factsStep_unfinished {render : String → String} {file content : String}
    (facts : List Fact)
    (h : "UNFINISHED" ∈ (parseMarkdownFile render (basenameMd file) content).tags) :
    factsStep render facts (file, content) = facts := by
  unfold factsStep
  split
  · simp [h]
  · rfl

lemma rulesStep_unfinished {render : String → String} {file content : String}
    (rules : List Rule)
    (h : "UNFINISHED" ∈ (parseMarkdownFile render (basenameMd file) content).tags) :
    rulesStep render rules (file, content) = rules := by
  unfold rulesStep
  split
  · simp [h]
  · rfl

/-! ### Claims -/

/-- C1: the rules output never contains two rules with identical canonical
serialization of the whole `{conditions, event}` object; two facts with
identical title, identical body and a shared tag contribute exactly one
tag-match rule for that tag, while two facts sharing a tag but differing in
title contribute two distinct tag-match rules for it. -/
theorem rules_dedup_by_whole_object (render : String → String)
    (docs : List (String × String)) :
    ((generateRules render docs).map ruleJson).Nodup
    ∧ parseMarkdownFile id (basenameMd "a.md") "# T\n- x"
        = parseMarkdownFile id (basenameMd "b.md") "# T\n- x"
    ∧ tagRuleCount
        (generateRules id [("a.md", "# T\n- x"), ("b.md", "# T\n- x")]) "x" = 1
    ∧ (parseMarkdownFile id (basenameMd "a.md") "# T1\n- x").title
        ≠ (parseMarkdownFile id (basenameMd "b.md") "# T2\n- x").title
    ∧ tagRuleCount
        (generateRules id [("a.md", "# T1\n- x"), ("b.md", "# T2\n- x")]) "x"
        = 2 := by
  refine ⟨?_, by decide, by decide, by decide, by decide⟩
  exact (generateRules_nodup render docs).map ruleJson_injective

/-- C2: tag candidates come from bullet lines first (remainder split on `-`,
pieces trimmed), then inline `#`-word occurrences over the full text, and the
final tag list is this merged sequence deduplicated by trimmed-string
equality in first-occurrence order; bullet line `- a - b` plus inline
`#b #c` yields exactly `["a", "b", "c"]`. -/
theorem tags_order_preserving_dedup (render : String → String)
    (fileName : String) :
    (∀ content : String,
      (parseMarkdownFile render fileName content).tags
        = dedupPreserve
            ((bulletTagCandidates (splitOnChar '\n' content)
                ++ extractInlineTags content).map jsTrim))
    ∧ (parseMarkdownFile render fileName "- a - b\n#b #c").tags
        = ["a", "b", "c"] :=
  ⟨fun _ => rfl, rfl⟩

/-- C3: a document whose parsed tag list contains `"UNFINISHED"` contributes
no fact to the facts output and no rule to the rules output: removing it from
the enumeration leaves both outputs unchanged. -/
theorem unfinished_excluded_everywhere (render : String → String)
    (docs₁ docs₂ : List (String × String)) (file content : String)
    (h : "UNFINISHED"
        ∈ (parseMarkdownFile render (basenameMd file) content).tags) :
    generateFacts render (docs₁ ++ (file, content) :: docs₂)
        = generateFacts render (docs₁ ++ docs₂)
    ∧ generateRules render (docs₁ ++ (file, content) :: docs₂)
        = generateRules render (docs₁ ++ docs₂) := by
  constructor
  · unfold generateFacts
    rw [List.foldl_append, List.foldl_append, List.foldl_cons,
      factsStep_unfinished _ h]
  · unfold generateRules
    rw [List.foldl_append, List.foldl_append, List.foldl_cons,
      rulesStep_unfinished _ h]

/-- Witness for C3 at a concrete enumeration: dropping the `#UNFINISHED`
document leaves both outputs unchanged. -/
theorem unfinished_excluded_everywhere_witness :
    generateFacts id [("a.md", "hi"), ("u.md", "#UNFINISHED")]
        = generateFacts id ([("a.md", "hi")] ++ [])
    ∧ generateRules id [("a.md", "hi"), ("u.md", "#UNFINISHED")]
        = generateRules id ([("a.md", "hi")] ++ []) :=
  unfinished_excluded_everywhere id [("a.md", "hi")] [] "u.md" "#UNFINISHED"
    (by
      have : (parseMarkdownFile id (basenameMd "u.md") "#UNFINISHED").tags
          = ["UNFINISHED"] := by decide
      simp [this])

/-- C9: a bullet line whose remainder contains consecutive dashes produces an
empty-string piece that survives deduplication as a tag, and the rules output
then contains a tag-match rule whose tag is the empty string. -/
theorem empty_string_tag_generated :
    (parseMarkdownFile id (basenameMd "f.md") "- - x").tags = ["", "x"]
    ∧ (generateRules id [("f.md", "- - x")]).map Rule.conditions
        = [RuleCond.tagIn "", RuleCond.tagIn "x", RuleCond.bodyEq "- - x"] :=
  ⟨by decide, by decide⟩

/-- Counterexample to C4: for the document `"# \nhello"` the first line
begins with `"# "` and the marker remainder trims to `""`, but the parsed
title is the fallback file name `"f"`, not that trimmed remainder (the
source's `if (!title)` also fires on an empty string). -/
theorem header_blank_title_counterexample :
    jsStartsWith "# " ((splitOnChar '\n' "# \nhello").headD "") = true
    ∧ jsTrim (jsSlice 2 ((splitOnChar '\n' "# \nhello").headD "")) = ""
    ∧ (parseMarkdownFile id "f" "# \nhello").title = "f"
    ∧ ("f" : String) ≠ "" :=
  ⟨by decide, by decide, by decide, by decide⟩

/-- C4 (amended): for a document whose first line begins with `"# "`, the
body is the remaining lines rejoined with newline, and the title is the
marker remainder trimmed when that is nonempty, else the fallback file
name. -/
theorem header_title_body_amended (render : String → String)
    (fileName content : String)
    (h : jsStartsWith "# " ((splitOnChar '\n' content).headD "") = true) :
    (parseMarkdownFile render fileName content).body
        = String.intercalate "\n" ((splitOnChar '\n' content).drop 1)
    ∧ (parseMarkdownFile render fileName content).title
        = (if jsTrim (jsSlice 2 ((splitOnChar '\n' content).headD "")) = ""
           then fileName
           else jsTrim (jsSlice 2 ((splitOnChar '\n' content).headD ""))) := by
  simp only [List.headD_eq_head?_getD] at h
  unfold parseMarkdownFile
  simp [h]

/-- Witness for C4 (amended) at `"# Title\nbody"`. -/
theorem header_title_body_amended_witness :
    (parseMarkdownFile id "f" "# Title\nbody").body
        = String.intercalate "\n" ((splitOnChar '\n' "# Title\nbody").drop 1)
    ∧ (parseMarkdownFile id "f" "# Title\nbody").title
        = (if jsTrim (jsSlice 2 ((splitOnChar '\n' "# Title\nbody").headD ""))
              = ""
           then "f"
           else jsTrim
             (jsSlice 2 ((splitOnChar '\n' "# Title\nbody").headD ""))) :=
  header_title_body_amended id "f" "# Title\nbody" (by decide)

/-- Counterexample to C5: two non-excluded facts with the same body `"same"`
but different titles yield two body-match rules whose condition carries that
body, not one — the dedup key includes the event's title. -/
theorem body_rule_shared_body_counterexample :
    (generateFacts id [("a.md", "# T1\nsame"), ("b.md", "# T2\nsame")]).map
        Fact.body = ["same", "same"]
    ∧ bodyRuleCount
        (generateRules id [("a.md", "# T1\nsame"), ("b.md", "# T2\nsame")])
        "same" = 2
    ∧ (2 : Nat) ≠ 1 :=
  ⟨by decide, by decide, by decide⟩

/-- C5 (amended): the rules output contains at most one body-match rule per
serialized rule object, i.e. per (title, body) pair: facts with equal body
and equal title collapse to a single body-match rule, while facts sharing a
body but differing in title contribute one body-match rule each. -/
theorem body_rule_per_object_amended (render : String → String)
    (docs : List (String × String)) (t b : String) :
    (generateRules render docs).count
        { conditions := RuleCond.bodyEq b
          event :=
            { type := "bodyMatch", message := "Matched body content",
              title := t, body := b } } ≤ 1
    ∧ bodyRuleCount
        (generateRules id [("a.md", "# T\nsame"), ("b.md", "# T\nsame")])
        "same" = 1
    ∧ bodyRuleCount
        (generateRules id [("a.md", "# T1\nsame"), ("b.md", "# T2\nsame")])
        "same" = 2 := by
  refine ⟨?_, by decide, by decide⟩
  exact List.nodup_iff_count_le_one.mp (generateRules_nodup render docs) _

/-- C6: a document whose first line does not begin with `"# "` gets the
file's base name (extension stripped) as title, and the empty document parses
without failure to the same fallback title with empty body and no tags. -/
theorem fallback_title_and_empty_input (render : String → String)
    (file content : String)
    (h : ¬ jsStartsWith "# " ((splitOnChar '\n' content).headD "") = true) :
    (parseMarkdownFile render (basenameMd file) content).title = basenameMd file
    ∧ parseMarkdownFile render (basenameMd file) ""
        = { title := basenameMd file, body := "", tags := [],
            htmlContent := render "" } := by
  constructor
  · simp only [List.headD_eq_head?_getD] at h
    unfold parseMarkdownFile
    simp [h]
  · rfl

/-- Witness for C6 at `"note.md"` with headerless content `"hello"`. -/
theorem fallback_title_and_empty_input_witness :
    (parseMarkdownFile id (basenameMd "note.md") "hello").title
        = basenameMd "note.md"
    ∧ parseMarkdownFile id (basenameMd "note.md") ""
        = { title := basenameMd "note.md", body := "", tags := [],
            htmlContent := id "" } :=
  fallback_title_and_empty_input id "note.md" "hello" (by decide)

/-- C7: with the directory-listing collaborator returning the same
enumeration on both runs, the two runs hand byte-identical facts and rules
file contents to the write collaborator. -/
theorem generation_deterministic (render : String → String)
    (docs₁ docs₂ : List (String × String)) (h : docs₁ = docs₂) :
    factsOutput render docs₁ = factsOutput render docs₂
    ∧ rulesOutput render docs₁ = rulesOutput render docs₂ := by
  subst h
  exact ⟨rfl, rfl⟩

/-- Witness for C7 at a concrete one-file enumeration. -/
theorem generation_deterministic_witness :
    factsOutput id [("a.md", "# Hello\n- x - y\nBody text #z")]
        = factsOutput id [("a.md", "# Hello\n- x - y\nBody text #z")]
    ∧ rulesOutput id [("a.md", "# Hello\n- x - y\nBody text #z")]
        = rulesOutput id [("a.md", "# Hello\n- x - y\nBody text #z")] :=
  generation_deterministic id [("a.md", "# Hello\n- x - y\nBody text #z")]
    [("a.md", "# Hello\n- x - y\nBody text #z")] rfl

/-- Whether one listed entry makes the pass's read loop throw: it passes the
extension filter and its read fails. -/
def badRead (fd : String × Except IOErr String) : Bool :=
  extname fd.1 = ".md" &&
    match fd.2 with
    | .error _ => true
    | .ok _ => false

lemma readParseAll_error_of_badRead (render : String → String) :
    ∀ files : List (String × Except IOErr String),
      files.any badRead = true →
      ∀ facts : List Fact, ∃ e, readParseAll render files facts = .error e := by
  intro files
  induction files with
  | nil => intro h; simp at h
  | cons fd fs ih =>
    intro h facts
    obtain ⟨name, rd⟩ := fd
    unfold readParseAll
    by_cases hm : extname name = ".md"
    · simp only [hm, if_true]
      cases rd with
      | error e => exact ⟨e, rfl⟩
      | ok content =>
        have h' : fs.any badRead = true := by
          simpa [badRead, hm] using h
        exact ih h' _
    · have h' : fs.any badRead = true := by
        simpa [badRead, hm] using h
      simp only [hm, if_false]
      exact ih h' _

lemma collectRulesAll_error_of_badRead (render : String → String) :
    ∀ files : List (String × Except IOErr String),
      files.any badRead = true →
      ∀ rules : List Rule, ∃ e, collectRulesAll render files rules = .error e := by
  intro files
  induction files with
  | nil => intro h; simp at h
  | cons fd fs ih =>
    intro h rules
    obtain ⟨name, rd⟩ := fd
    unfold collectRulesAll
    by_cases hm : extname name = ".md"
    · simp only [hm, if_true]
      cases rd with
      | error e => exact ⟨e, rfl⟩
      | ok content =>
        have h' : fs.any badRead = true := by
          simpa [badRead, hm] using h
        exact ih h' _
    · have h' : fs.any badRead = true := by
        simpa [badRead, hm] using h
      simp only [hm, if_false]
      exact ih h' _

lemma except_ok_bind {α β : Type} (a : α) (f : α → Except IOErr β) :
    (Except.ok a : Except IOErr α) >>= f = f a := rfl

lemma except_error_bind {α β : Type} (e : IOErr) (f : α → Except IOErr β) :
    (Except.error e : Except IOErr α) >>= f = Except.error e := rfl

lemma factsBody_error_of_listingHasError (render : String → String)
    (l : Except IOErr (List (String × Except IOErr String)))
    (h : listingHasError l = true) : ∃ e, factsBody render l = .error e := by
  cases l with
  | error e => exact ⟨e, rfl⟩
  | ok files =>
    have hb : files.any badRead = true := by
      simpa [listingHasError, badRead] using h
    obtain ⟨e, he⟩ := readParseAll_error_of_badRead render files hb []
    refine ⟨e, ?_⟩
    unfold factsBody
    rw [except_ok_bind, he, except_error_bind]

lemma rulesBody_error_of_listingHasError (render : String → String)
    (l : Except IOErr (List (String × Except IOErr String)))
    (h : listingHasError l = true) : ∃ e, rulesBody render l = .error e := by
  cases l with
  | error e => exact ⟨e, rfl⟩
  | ok files =>
    have hb : files.any badRead = true := by
      simpa [listingHasError, badRead] using h
    obtain ⟨e, he⟩ := collectRulesAll_error_of_badRead render files hb []
    refine ⟨e, ?_⟩
    unfold rulesBody
    rw [except_ok_bind, he, except_error_bind]

/-- C8: a pass whose enumeration or reads fail writes nothing (its outcome is
`failed`, no content reaches the write collaborator), and the rules pass is
attempted with its own enumeration regardless of the facts pass's failure. -/
theorem pass_atomic_and_independent (render : String → String)
    (l1 l2 : Except IOErr (List (String × Except IOErr String)))
    (h : listingHasError l1 = true) :
    (∃ e, (mainRun render l1 l2).1 = PassOutcome.failed e)
    ∧ (listingHasError l2 = true →
        ∃ e, (mainRun render l1 l2).2 = PassOutcome.failed e)
    ∧ (mainRun render l1 l2).2 = rulesPass render l2 := by
  refine ⟨?_, ?_, rfl⟩
  · obtain ⟨e, he⟩ := factsBody_error_of_listingHasError render l1 h
    exact ⟨e, by simp [mainRun, factsPass, he]⟩
  · intro h2
    obtain ⟨e, he⟩ := rulesBody_error_of_listingHasError render l2 h2
    exact ⟨e, by simp [mainRun, rulesPass, he]⟩

/-- Witness for C8: a failing read in the facts pass's enumeration, a failing
read in the rules pass's enumeration. -/
theorem pass_atomic_and_independent_witness :
    (∃ e, (mainRun id (.ok [("a.md", .error "boom")])
        (.ok [("b.md", .error "crash")])).1 = PassOutcome.failed e)
    ∧ (listingHasError (.ok [("b.md", .error "crash")]) = true →
        ∃ e, (mainRun id (.ok [("a.md", .error "boom")])
          (.ok [("b.md", .error "crash")])).2 = PassOutcome.failed e)
    ∧ (mainRun id (.ok [("a.md", .error "boom")])
        (.ok [("b.md", .error "crash")])).2
        = rulesPass id (.ok [("b.md", .error "crash")]) :=
  pass_atomic_and_independent id (.ok [("a.md", .error "boom")])
    (.ok [("b.md", .error "crash")]) (by decide)

lemma generateFactsJSONReturn_ok (render : String → String)
    (l : Except IOErr (List (String × Except IOErr String)))
    (w : Except IOErr Unit) : generateFactsJSONReturn render l w = .ok () := by
  unfold generateFactsJSONReturn
  rcases hb : factsBody render l with e | c
  · rfl
  · rcases w with e' | u
    · rfl
    · rfl

lemma generateRulesJSONReturn_ok (render : String → String)
    (l : Except IOErr (List (String × Except IOErr String)))
    (w : Except IOErr Unit) : generateRulesJSONReturn render l w = .ok () := by
  unfold generateRulesJSONReturn
  rcases hb : rulesBody render l with e | c
  · rfl
  · rcases w with e' | u
    · rfl
    · rfl

/-- C10: `generateFactsJSON` and `generateRulesJSON` never propagate an error
to their caller — every read, parse and write failure is caught and only
logged, both always resolve with `()`, so the caller cannot distinguish a
failed pass from a successful one by the returned result. -/
theorem generators_always_resolve (render render' : String → String)
    (l1 l2 l1' l2' : Except IOErr (List (String × Except IOErr String)))
    (w1 w2 w1' w2' : Except IOErr Unit) :
    generateFactsJSONReturn render l1 w1 = .ok ()
    ∧ generateRulesJSONReturn render l2 w2 = .ok ()
    ∧ generateFactsJSONReturn render l1 w1
        = generateFactsJSONReturn render' l1' w1'
    ∧ generateRulesJSONReturn render l2 w2
        = generateRulesJSONReturn render' l2' w2' := by
  refine ⟨generateFactsJSONReturn_ok render l1 w1,
    generateRulesJSONReturn_ok render l2 w2, ?_, ?_⟩
  · rw [generateFactsJSONReturn_ok, generateFactsJSONReturn_ok]
  · rw [generateRulesJSONReturn_ok, generateRulesJSONReturn_ok]

end MlexJsonRules
